import Mathlib

/-!
Shallow embedding of the dashboard repository (a client-rendered
weather/news/stocks dashboard).

Embedded here, from the source:
  * the stock panel's chart-data windower (`chartData` in
    src/components/stocks.tsx, lines 168-208);
  * the stock panel's state transitions (`fetchStockData` entry,
    `handleSearch`, the API-key validity computation);
  * the weather panel's fetch entry (`fetchWeather` in
    src/components/weather.tsx) and its rain-prediction computation
    (`getRainChances`).

Modeling conventions:
  * dates are integer millisecond timestamps (the value of
    `new Date(d).getTime()` for a valid date string `d`);
  * the per-day record payload is an abstract type `α`, and the element
    map `f : α → β` models the arrow function
    `([date, data]) => ({date, close: parseFloat(data['4. close']),
    volume: parseInt(data['5. volume'])})`: it is applied pointwise and
    never inspected by the windowing logic, so the numeric parse is kept
    abstract;
  * a JS object used as a string-keyed mapping is a list of key-value
    pairs in insertion order (the enumeration order of `Object.entries`
    and `Object.keys` for such keys), with pairwise-distinct keys;
  * `Array.prototype.sort` with the numeric date comparator is a stable
    sort by date, modeled by `List.mergeSort` with the date order;
  * rain amounts (JS floating-point numbers from the API) are modeled as
    exact rationals `ℚ`; `Math.round` is `round : ℚ → ℤ`, which agrees
    with JS rounding (`⌊x + 1/2⌋`).
-/

namespace Dashboard

/-- `24 * 60 * 60 * 1000`: milliseconds per day, as used in
`now.getTime() - days * 24 * 60 * 60 * 1000` (stocks.tsx line 173). -/
def msPerDay : Int := 24 * 60 * 60 * 1000

/-- stocks.tsx line 172: `timeRange === '1week' ? 7 : timeRange === '1month'
? 30 : timeRange === '3months' ? 90 : 365`. -/
def windowDays (timeRange : String) : Int :=
  if timeRange == "1week" then 7
  else if timeRange == "1month" then 30
  else if timeRange == "3months" then 90
  else 365

/-- stocks.tsx line 184: `const sampleSize = 10`. -/
def sampleSize : Nat := 10

/-- The sampling loop of stocks.tsx lines 186-191:
`for (let i = 0; i < allData.length; i += step) { sampledData.push(allData[i]);
if (sampledData.length >= sampleSize) break; }`.
`acc` is `sampledData`; the loop pushes `allData[i]`, then breaks once
`sampleSize` points are collected. -/
def sampleLoop (xs : List γ) (step : Nat) (i : Nat) (acc : List γ) : List γ :=
  if h : i < xs.length then
    let acc2 := acc ++ [xs.get ⟨i, h⟩]
    if sampleSize ≤ acc2.length then acc2
    else sampleLoop xs step (i + step) acc2
  else acc
termination_by sampleSize - acc.length
decreasing_by simp only [acc2, List.length_append, List.length_singleton] at *; omega

/-- The element map stage of stocks.tsx lines 177-181, with the numeric
payload map `f` abstract (see the module docstring). -/
def toPoint (f : α → β) (p : Int × α) : Int × β := (p.1, f p.2)

/-- The sort comparator of stocks.tsx line 182:
`(a, b) => new Date(a.date).getTime() - new Date(b.date).getTime()`,
i.e. ascending by date. -/
def dateLe (p q : Int × β) : Bool := p.1 ≤ q.1

/-- stocks.tsx lines 171-191 (`chartData` for a non-null
`historicalData`): compute the cutoff from `now` and the selected
`timeRange`, keep the entries whose date is `≥ cutoff`, map each to a
chart point, sort ascending by date, then stride-sample with
`step = max(1, floor(n / sampleSize))`. -/
def chartSeries (f : α → β) (now : Int) (timeRange : String)
    (hist : List (Int × α)) : List (Int × β) :=
  let days := windowDays timeRange
  let cutoffDate := now - days * msPerDay
  let allData :=
    ((hist.filter (fun p => cutoffDate ≤ p.1)).map (toPoint f)).mergeSort dateLe
  let step := max 1 (allData.length / sampleSize)
  sampleLoop allData step 0 []

/-- stocks.tsx line 169 + 171-191: `chartData` including the
`if (!historicalData) return {labels: [], datasets: []}` guard. The
returned chart object's `labels`/`datasets` arrays are both pointwise
images of the sampled list, so the sampled list is the model of the
output. -/
def chartData (f : α → β) (now : Int) (timeRange : String)
    (historicalData : Option (List (Int × α))) : List (Int × β) :=
  match historicalData with
  | none => []
  | some hist => chartSeries f now timeRange hist

/-- Reference formulation of the spec's sampling step (spec §4.1 step 3):
`stride = max(1, floor(filteredCount / targetSize))`; take every
stride-th element starting from the first until `targetSize` points are
collected. -/
def strideSample (xs : List γ) : List γ :=
  let stride := max 1 (xs.length / sampleSize)
  (List.range sampleSize).filterMap (fun k => xs.get? (k * stride))

/-- The reference windower of claim C1, built from the spec's words:
filter to the closed window `[now − windowDays, now]` (both bounds),
sort ascending by date, then stride-sample. -/
def chartSeriesRef (f : α → β) (now : Int) (timeRange : String)
    (hist : List (Int × α)) : List (Int × β) :=
  let days := windowDays timeRange
  let cutoffDate := now - days * msPerDay
  strideSample
    (((hist.filter (fun p => cutoffDate ≤ p.1 && p.1 ≤ now)).map
        (toPoint f)).mergeSort dateLe)

/-- The reference windower amended to match the source: the date filter
keeps every record at or after the cutoff, with no upper bound at `now`
(stocks.tsx line 176 tests only `new Date(date) >= cutoffDate`). -/
def chartSeriesRefLB (f : α → β) (now : Int) (timeRange : String)
    (hist : List (Int × α)) : List (Int × β) :=
  let days := windowDays timeRange
  let cutoffDate := now - days * msPerDay
  strideSample
    (((hist.filter (fun p => cutoffDate ≤ p.1)).map (toPoint f)).mergeSort dateLe)

/-- Modelled from the spec: windowing with an unbounded window (spec §8:
"Windowing with a window larger than the data span returns the same
result as an unbounded window"). This variant is the source's windower
with the date filter removed; it appears in no source file. -/
def chartSeriesNoFilter (f : α → β) (hist : List (Int × α)) : List (Int × β) :=
  let allData := (hist.map (toPoint f)).mergeSort dateLe
  let step := max 1 (allData.length / sampleSize)
  sampleLoop allData step 0 []

/-- stocks.tsx line 29: the supported symbol list. -/
def SUPPORTED_SYMBOLS : List String :=
  ["AAPL", "MSFT", "GOOGL", "AMZN", "TSLA", "ADBE",
   "NVDA", "META", "NFLX", "IBM", "INTC", "AMD"]

/-- stocks.tsx lines 31-41: the `StockData` quote record (all fields are
the raw strings taken from the API response). -/
structure StockData where
  symbol : String
  price : String
  change : String
  changePercent : String
  high : String
  low : String
  volume : String
  latestTradingDay : String
  companyName : String
deriving DecidableEq, Repr

/-- stocks.tsx lines 43-51: one value of the `HistoricalData` mapping,
the record under keys `'1. open'` … `'5. volume'` (named `field1Open` …
`field5Volume` here because the JSON keys are not identifiers). -/
structure DailyRecord where
  field1Open : String
  field2High : String
  field3Low : String
  field4Close : String
  field5Volume : String
deriving DecidableEq, Repr

/-- The React state of `StockDashboard` (stocks.tsx lines 54-61), with
`historicalData` as a date-keyed entry list (see module docstring). -/
structure StockState where
  symbol : String
  stockData : Option StockData
  historicalData : Option (List (Int × DailyRecord))
  timeRange : String
  loading : Bool
  error : Option String
  searchQuery : String
  apiKeyValid : Bool
deriving DecidableEq, Repr

/-- stocks.tsx lines 82-83: `setApiKeyValid(!!key && key !== 'demo')`
where `key = process.env.NEXT_PUBLIC_ALPHAVANTAGE_API_KEY` (`none` when
the variable is unset; `!!key` is false exactly for unset or empty). -/
def apiKeyValidOf (key : Option String) : Bool :=
  match key with
  | none => false
  | some k => !(k == "") && !(k == "demo")

/-- stocks.tsx line 88: the configuration-warning message. -/
def missingKeyMsg : String := "Please add your Alpha Vantage API key to .env.local"

/-- The synchronous entry of `fetchStockData` (stocks.tsx lines 86-94):
with an invalid key it sets the warning and returns; otherwise it sets
`loading` and clears `error`, then proceeds to the network calls. The
second component is whether execution proceeds past line 94 (toward any
`fetch`). -/
def fetchStockDataStart (s : StockState) : StockState × Bool :=
  if !s.apiKeyValid then
    ({ s with error := some missingKeyMsg }, false)
  else
    ({ s with loading := true, error := none }, true)

/-- stocks.tsx line 163: the rejected-search error message. -/
def invalidSymbolMsg : String :=
  "Invalid symbol. Supported: " ++ String.intercalate ", " SUPPORTED_SYMBOLS

/-- stocks.tsx lines 155-166 (`handleSearch`): on a non-blank query,
uppercase its trim; a supported symbol is selected and the box cleared,
an unsupported one only sets the error message. -/
def handleSearch (s : StockState) : StockState :=
  if !(s.searchQuery.trim == "") then
    let newSymbol := s.searchQuery.trim.toUpper
    if SUPPORTED_SYMBOLS.contains newSymbol then
      { s with symbol := newSymbol, searchQuery := "" }
    else
      { s with error := some invalidSymbolMsg }
  else s

/-- stocks.tsx lines 149-153: the fetch effect runs when one of its
dependencies `[symbol, timeRange, apiKeyValid]` changed between two
renders. -/
def fetchTriggered (s t : StockState) : Bool :=
  !(t.symbol == s.symbol) || !(t.timeRange == s.timeRange) ||
    !(t.apiKeyValid == s.apiKeyValid)

/-- weather.tsx lines 95-99: one entry of `forecast.list`; `rain` models
the optional `item.rain?.['3h']` amount as an exact rational (see module
docstring), `dt_txt` is the `"YYYY-MM-DD hh:mm:ss"` text stamp. -/
structure ForecastItem where
  dt_txt : String
  rain : Option ℚ
deriving DecidableEq

/-- The `{ current, forecast }` payload stored by the weather panel
(weather.tsx line 75). Only `forecast.list` is inspected by the logic
under verification; `current` is opaque. -/
structure WeatherData where
  forecastList : List ForecastItem
deriving DecidableEq

/-- The React state of `WeatherPage` (weather.tsx lines 52-56). -/
structure WeatherState where
  city : String
  inputCity : String
  data : Option WeatherData
  error : Option String
  loading : Bool
deriving DecidableEq

/-- The synchronous entry of `fetchWeather` (weather.tsx lines 59-63):
an empty city name returns at once; otherwise the panel enters Loading,
clearing both the error and the previously displayed data before any
response arrives. -/
def fetchWeatherStart (s : WeatherState) (cityName : String) : WeatherState :=
  if cityName == "" then s
  else { s with loading := true, error := none, data := none }

/-- weather.tsx line 97: `item.rain?.['3h'] || 0`. -/
def rainOf (it : ForecastItem) : ℚ := it.rain.getD 0

/-- weather.tsx line 96: `item.dt_txt.split(' ')[0]`, the date part of
the forecast time stamp. -/
def dayKey (it : ForecastItem) : String := (it.dt_txt.splitOn " ").headD ""

/-- One step of the grouping loop of weather.tsx lines 95-100: push the
item's rain amount onto its date bucket, creating the bucket (at the end,
preserving first-appearance key order) if absent. -/
def addItem (acc : List (String × List ℚ)) (it : ForecastItem) :
    List (String × List ℚ) :=
  if acc.any (fun p => p.1 == dayKey it) then
    acc.map (fun p => if p.1 == dayKey it then (p.1, p.2 ++ [rainOf it]) else p)
  else
    acc ++ [(dayKey it, [rainOf it])]

/-- weather.tsx lines 94-100: the `result` object, grouping per-interval
rain amounts by forecast date in first-appearance order. -/
def groupRains (items : List ForecastItem) : List (String × List ℚ) :=
  items.foldl addItem []

/-- weather.tsx lines 93-109 (`getRainChances`): group rain amounts by
day, keep days 1-3 (`Object.keys(result).slice(1, 4)`), and for each map
the scaled average to a clamped rounded percentage
`Math.min(100, Math.round((sum / count) * 10))`. -/
def getRainChances (items : List ForecastItem) : List (String × ℤ) :=
  ((groupRains items).drop 1).take 3 |>.map fun p =>
    let sum := p.2.sum
    let avg := (sum / (p.2.length : ℚ)) * 10
    (p.1, min 100 (round avg))

/-! ### Lemmas about the sampling loop -/

/-- Closed form of the sampling loop: starting from a partial `acc`, it
appends the elements at indices `i, i + step, i + 2·step, …` until the
total reaches `sampleSize` or the list runs out. -/
theorem sampleLoop_eq (xs : List γ) (step : Nat) (i : Nat) (acc : List γ)
    (hacc : acc.length < sampleSize) :
    sampleLoop xs step i acc =
      acc ++ (List.range (sampleSize - acc.length)).filterMap
        (fun k => xs.get? (i + k * step)) := by
  induction i, acc using sampleLoop.induct xs step with
  | case1 i acc h acc2 hstop =>
    rw [sampleLoop]
    simp only [h, dif_pos, acc2] at *
    rw [if_pos hstop]
    have hlen : sampleSize - acc.length = 1 := by
      simp only [List.length_append, List.length_singleton] at hstop
      omega
    rw [hlen]
    have hr1 : List.range 1 = [0] := rfl
    rw [hr1]
    have hv2 : xs.get? (i + 0 * step) = some (xs.get ⟨i, h⟩) := by
      simp [List.get?_eq_get h]
    rw [@List.filterMap_cons_some _ _ (fun k => xs.get? (i + k * step)) 0 _ _ hv2,
      List.filterMap_nil]
  | case2 i acc h acc2 hstop ih =>
    rw [sampleLoop]
    simp only [h, dif_pos, acc2] at *
    rw [if_neg hstop]
    have hlt : (acc ++ [xs.get ⟨i, h⟩]).length < sampleSize := by
      simp only [List.length_append, List.length_singleton] at hstop ⊢
      omega
    rw [ih hlt]
    have hsz : sampleSize - acc.length = (sampleSize - (acc ++ [xs.get ⟨i, h⟩]).length) + 1 := by
      simp only [List.length_append, List.length_singleton]
      omega
    have hv2 : xs.get? (i + 0 * step) = some (xs.get ⟨i, h⟩) := by
      simp [List.get?_eq_get h]
    rw [hsz, List.range_succ_eq_map,
      @List.filterMap_cons_some _ _ (fun k => xs.get? (i + k * step)) 0 _ _ hv2,
      List.filterMap_map, List.append_assoc, List.singleton_append]
    congr 2
    apply List.filterMap_congr
    intro k _
    simp only [Function.comp_apply]
    have harith : i + step + k * step = i + Nat.succ k * step := by
      rw [Nat.succ_mul]; omega
    rw [harith]
  | case3 i acc h =>
    rw [sampleLoop]
    rw [dif_neg h]
    have : ∀ k ∈ List.range (sampleSize - acc.length),
        xs.get? (i + k * step) = none := by
      intro k _
      apply List.get?_eq_none.mpr
      omega
    rw [List.filterMap_eq_nil_iff.mpr this, List.append_nil]

/-- The loop started with an empty accumulator computes exactly the
spec's stride sample. -/
theorem sampleLoop_eq_strideSample (xs : List γ) :
    sampleLoop xs (max 1 (xs.length / sampleSize)) 0 [] = strideSample xs := by
  rw [sampleLoop_eq xs _ 0 [] (by simp [sampleSize])]
  simp [strideSample]

/-- The loop never collects more than `sampleSize` points. -/
theorem sampleLoop_length_le (xs : List γ) (step : Nat) (i : Nat) (acc : List γ)
    (hacc : acc.length < sampleSize) :
    (sampleLoop xs step i acc).length ≤ sampleSize := by
  rw [sampleLoop_eq xs step i acc hacc]
  have h1 := List.length_filterMap_le
    (fun k => xs.get? (i + k * step)) (List.range (sampleSize - acc.length))
  simp only [List.length_append, List.length_range] at *
  omega

/-- The loop's output (from an empty accumulator, positive step) is a
sublist of the tail of `xs` starting at `i`. -/
theorem sampleLoop_sublist_drop (xs : List γ) (step : Nat) (hstep : 1 ≤ step) :
    ∀ i acc, ∃ t, sampleLoop xs step i acc = acc ++ t ∧ t.Sublist (xs.drop i) := by
  intro i acc
  induction i, acc using sampleLoop.induct xs step with
  | case1 i acc h acc2 hstop =>
    rw [sampleLoop]
    simp only [h, dif_pos, acc2] at *
    rw [if_pos hstop]
    refine ⟨[xs.get ⟨i, h⟩], rfl, ?_⟩
    rw [List.drop_eq_get_cons h]
    exact (List.nil_sublist _).cons₂ _
  | case2 i acc h acc2 hstop ih =>
    rw [sampleLoop]
    simp only [h, dif_pos, acc2] at *
    rw [if_neg hstop]
    obtain ⟨t, ht, hsub⟩ := ih
    refine ⟨xs.get ⟨i, h⟩ :: t, by rw [ht]; simp, ?_⟩
    rw [List.drop_eq_get_cons h]
    refine List.Sublist.cons₂ _ (hsub.trans ?_)
    have h2 : xs.drop (i + step) = (xs.drop (i + 1)).drop (step - 1) := by
      rw [List.drop_drop]
      congr 1
      omega
    rw [h2]
    exact List.drop_sublist _ _
  | case3 i acc h =>
    rw [sampleLoop, dif_neg h]
    exact ⟨[], by simp, List.nil_sublist _⟩

/-! ### Lemmas about the date order and the sort stage -/

theorem dateLe_trans (a b c : Int × β) :
    dateLe a b = true → dateLe b c = true → dateLe a c = true := by
  simp only [dateLe, decide_eq_true_eq]
  omega

theorem dateLe_total (a b : Int × β) : (dateLe a b || dateLe b a) = true := by
  simp only [dateLe, Bool.or_eq_true, decide_eq_true_eq]
  omega

/-- The sorted stage is pairwise `≤` on dates. -/
theorem mergeSort_pairwise_le (l : List (Int × β)) :
    (l.mergeSort dateLe).Pairwise (fun p q => p.1 ≤ q.1) := by
  have h := @List.sorted_mergeSort _ dateLe dateLe_trans dateLe_total l
  exact h.imp (fun hab => by simpa [dateLe] using hab)

/-- With pairwise-distinct dates the sorted stage is pairwise `<` on
dates. -/
theorem mergeSort_pairwise_lt (l : List (Int × β))
    (hnd : (l.map Prod.fst).Nodup) :
    (l.mergeSort dateLe).Pairwise (fun p q => p.1 < q.1) := by
  have hle := mergeSort_pairwise_le l
  have hperm := List.mergeSort_perm l dateLe
  have hnd2 : ((l.mergeSort dateLe).map Prod.fst).Nodup :=
    ((hperm.map Prod.fst).nodup_iff).mpr hnd
  have hne : (l.mergeSort dateLe).Pairwise (fun p q => p.1 ≠ q.1) :=
    List.pairwise_map.mp hnd2
  exact (hle.and hne).imp (fun hpq => lt_of_le_of_ne hpq.1 hpq.2)

/-- The head of the sorted stage is a date-minimal element. -/
theorem mergeSort_head_min (l : List (Int × β)) (hne : l ≠ []) :
    ∃ m, (l.mergeSort dateLe).head? = some m ∧ m ∈ l ∧ ∀ p ∈ l, m.1 ≤ p.1 := by
  have hperm := List.mergeSort_perm l dateLe
  have hle := mergeSort_pairwise_le l
  cases hms : l.mergeSort dateLe with
  | nil =>
    exfalso
    apply hne
    have hlen := hperm.length_eq
    rw [hms] at hlen
    exact List.length_eq_zero.mp hlen.symm
  | cons m rest =>
    refine ⟨m, rfl, ?_, ?_⟩
    · exact hperm.mem_iff.mp (by rw [hms]; exact List.mem_cons_self m rest)
    · intro p hp
      have hp2 : p ∈ m :: rest := by
        rw [← hms]
        exact hperm.mem_iff.mpr hp
      rw [hms] at hle
      rcases List.mem_cons.mp hp2 with heq | hrest
      · rw [heq]
      · exact (List.pairwise_cons.mp hle).1 p hrest

/-- The loop's output from an empty accumulator has the head of its
input as first element. -/
theorem sampleLoop_head (xs : List γ) (step : Nat) :
    (sampleLoop xs step 0 []).head? = xs.head? := by
  cases xs with
  | nil => rw [sampleLoop]; simp
  | cons a l =>
    rw [sampleLoop_eq _ _ 0 [] (by norm_num [sampleSize])]
    have hsz : sampleSize - ([] : List γ).length = 9 + 1 := rfl
    rw [hsz, List.range_succ_eq_map]
    have hv : (a :: l).get? (0 + 0 * step) = some a := by simp
    rw [@List.filterMap_cons_some _ _ (fun k => (a :: l).get? (0 + k * step)) 0 _ _ hv]
    rfl

/-- The loop's output from an empty accumulator is a sublist of its
input, hence inherits any pairwise property. -/
theorem sampleLoop_pairwise {R : γ → γ → Prop} (xs : List γ) (step : Nat)
    (hstep : 1 ≤ step) (hp : xs.Pairwise R) :
    (sampleLoop xs step 0 []).Pairwise R := by
  obtain ⟨t, ht, hsub⟩ := sampleLoop_sublist_drop xs step hstep 0 []
  rw [ht, List.nil_append]
  rw [List.drop_zero] at hsub
  exact List.Pairwise.sublist hsub hp

/-- The windower, written with its let-bindings expanded. -/
theorem chartSeries_repr (f : α → β) (now : Int) (timeRange : String)
    (hist : List (Int × α)) :
    chartSeries f now timeRange hist =
      sampleLoop
        (((hist.filter (fun p => now - windowDays timeRange * msPerDay ≤ p.1)).map
            (toPoint f)).mergeSort dateLe)
        (max 1 ((((hist.filter (fun p => now - windowDays timeRange * msPerDay ≤ p.1)).map
            (toPoint f)).mergeSort dateLe).length / sampleSize)) 0 [] := rfl

/-- The unbounded-window windower, with its let-bindings expanded. -/
theorem chartSeriesNoFilter_repr (f : α → β) (hist : List (Int × α)) :
    chartSeriesNoFilter f hist =
      sampleLoop ((hist.map (toPoint f)).mergeSort dateLe)
        (max 1 (((hist.map (toPoint f)).mergeSort dateLe).length / sampleSize))
        0 [] := rfl

/-- The claim's reference windower, with its let-bindings expanded. -/
theorem chartSeriesRef_repr (f : α → β) (now : Int) (timeRange : String)
    (hist : List (Int × α)) :
    chartSeriesRef f now timeRange hist =
      strideSample
        (((hist.filter
            (fun p => now - windowDays timeRange * msPerDay ≤ p.1 && p.1 ≤ now)).map
              (toPoint f)).mergeSort dateLe) := rfl

/-! ### Claim theorems for the windower -/

/-- **C1 (amended)**: the stock panel's `chartData` computation equals
the reference algorithm whose filter retains exactly the records whose
date is at or after `now − windowDays` (no upper bound at `now`), which
then sorts the retained records ascending by date and stride-samples
with `stride = max(1, ⌊filteredCount / 10⌋)`, taking every stride-th
element starting from the first until 10 points are collected. -/
theorem chartSeries_eq_ref_lower_bounded (f : α → β) (now : Int)
    (timeRange : String) (hist : List (Int × α)) :
    chartSeries f now timeRange hist = chartSeriesRefLB f now timeRange hist := by
  rw [chartSeries_repr]
  exact sampleLoop_eq_strideSample _

/-- **C1 (counterexample)**: the claim's reference algorithm filters to
the closed window `[now − windowDays, now]`, but the code checks only
the lower bound, so a record dated one day after `now` is retained by
the code and rejected by the reference: at `now = 0`, window `1week`,
input `{(now + 1 day) ↦ r}`, the code outputs that record while the
reference outputs nothing. -/
theorem chartSeries_ne_ref_counterexample :
    chartSeries (fun r => r) 0 "1week" [((86400000 : Int), (0 : Int))] ≠
      chartSeriesRef (fun r => r) 0 "1week" [((86400000 : Int), (0 : Int))] := by
  rw [chartSeries_repr, sampleLoop_eq_strideSample]
  show strideSample (List.mergeSort _ _) ≠ strideSample (List.mergeSort _ _)
  have h1 : ([((86400000 : Int), (0 : Int))].filter
      (fun p => (0 : Int) - windowDays "1week" * msPerDay ≤ p.1)).map
        (toPoint (fun r => r)) = [((86400000 : Int), (0 : Int))] := by decide
  have h2 : ([((86400000 : Int), (0 : Int))].filter
      (fun p => (0 : Int) - windowDays "1week" * msPerDay ≤ p.1 && p.1 ≤ 0)).map
        (toPoint (fun r => r)) = [] := by decide
  rw [h1, h2, List.mergeSort_singleton, List.mergeSort_nil]
  decide

/-- **C2**: for every date-keyed record mapping (pairwise-distinct
dates) and every window selector, the windower's output has length at
most the target size 10, and its dates are strictly increasing. -/
theorem chartSeries_length_le_and_strictMono (f : α → β) (now : Int)
    (timeRange : String) (hist : List (Int × α))
    (hnd : (hist.map Prod.fst).Nodup) :
    (chartSeries f now timeRange hist).length ≤ sampleSize ∧
      (chartSeries f now timeRange hist).Pairwise (fun p q => p.1 < q.1) := by
  rw [chartSeries_repr]
  constructor
  · exact sampleLoop_length_le _ _ _ _ (by norm_num [sampleSize])
  · apply sampleLoop_pairwise _ _ (le_max_left _ _)
    apply mergeSort_pairwise_lt
    have h1 : ((hist.filter
          (fun p => now - windowDays timeRange * msPerDay ≤ p.1)).map
            (toPoint f)).map Prod.fst =
        (hist.filter
          (fun p => now - windowDays timeRange * msPerDay ≤ p.1)).map Prod.fst := by
      rw [List.map_map]
      rfl
    rw [h1]
    exact List.Nodup.sublist
      (List.Sublist.map Prod.fst (List.filter_sublist hist)) hnd

/-- **C2 (witness)**: the bounds hold at a concrete two-day mapping. -/
theorem chartSeries_length_le_and_strictMono_witness :
    (([((0 : Int), (7 : Int)), ((1 : Int), (9 : Int))].map Prod.fst).Nodup) ∧
      ((chartSeries (fun r => r) 0 "3months"
          [((0 : Int), (7 : Int)), ((1 : Int), (9 : Int))]).length ≤ sampleSize ∧
        (chartSeries (fun r => r) 0 "3months"
          [((0 : Int), (7 : Int)), ((1 : Int), (9 : Int))]).Pairwise
            (fun p q => p.1 < q.1)) :=
  ⟨by decide, chartSeries_length_le_and_strictMono _ _ _ _ (by decide)⟩

/-- **C6**: windowing an empty mapping (and the null guard) yields the
empty output; the windower is a total Lean function, so it is defined —
with no error — on every input mapping and selector. -/
theorem chartData_empty_input (f : α → β) (now : Int) (timeRange : String) :
    chartData f now timeRange (some []) = [] ∧
      chartData f now timeRange none = [] := by
  constructor
  · show chartSeries f now timeRange [] = []
    rw [chartSeries_repr]
    simp only [List.filter_nil, List.map_nil, List.mergeSort_nil]
    rw [sampleLoop]
    simp
  · rfl

/-- **C7**: when every date of the mapping lies inside the selected
lookback window, the windower agrees with the unbounded-window variant
(no date filter). -/
theorem chartSeries_window_covers (f : α → β) (now : Int) (timeRange : String)
    (hist : List (Int × α))
    (hall : ∀ p ∈ hist,
      now - windowDays timeRange * msPerDay ≤ p.1 ∧ p.1 ≤ now) :
    chartSeries f now timeRange hist = chartSeriesNoFilter f hist := by
  rw [chartSeries_repr, chartSeriesNoFilter_repr]
  have hfil : hist.filter
      (fun p => now - windowDays timeRange * msPerDay ≤ p.1) = hist :=
    List.filter_eq_self.mpr (fun p hp => by simpa using (hall p hp).1)
  rw [hfil]

/-- **C7 (witness)**: concrete instance with all dates in the window. -/
theorem chartSeries_window_covers_witness :
    (∀ p ∈ [((0 : Int), (7 : Int))],
      (0 : Int) - windowDays "1week" * msPerDay ≤ p.1 ∧ p.1 ≤ 0) ∧
      chartSeries (fun r => r) 0 "1week" [((0 : Int), (7 : Int))] =
        chartSeriesNoFilter (fun r => r) [((0 : Int), (7 : Int))] :=
  ⟨by decide, chartSeries_window_covers _ _ _ _ (by decide)⟩

/-- **C8**: whenever the date filter retains a non-empty set of records,
the first element of the windower's output is a retained record of
minimal date (the earliest retained record). -/
theorem chartSeries_head_is_earliest (f : α → β) (now : Int)
    (timeRange : String) (hist : List (Int × α))
    (hne : (hist.filter
        (fun p => now - windowDays timeRange * msPerDay ≤ p.1)).map
          (toPoint f) ≠ []) :
    ∃ m, (chartSeries f now timeRange hist).head? = some m ∧
      m ∈ (hist.filter
        (fun p => now - windowDays timeRange * msPerDay ≤ p.1)).map (toPoint f) ∧
      ∀ p ∈ (hist.filter
        (fun p => now - windowDays timeRange * msPerDay ≤ p.1)).map (toPoint f),
        m.1 ≤ p.1 := by
  obtain ⟨m, hm, hmem, hmin⟩ := mergeSort_head_min _ hne
  refine ⟨m, ?_, hmem, hmin⟩
  rw [chartSeries_repr, sampleLoop_head]
  exact hm

/-- **C8 (witness)**: concrete instance with one retained record. -/
theorem chartSeries_head_is_earliest_witness :
    (([((- 5 : Int), (3 : Int))].filter
        (fun p => (0 : Int) - windowDays "1week" * msPerDay ≤ p.1)).map
          (toPoint (fun r => r)) ≠ []) ∧
      (∃ m, (chartSeries (fun r => r) 0 "1week"
            [((- 5 : Int), (3 : Int))]).head? = some m ∧
        m ∈ ([((- 5 : Int), (3 : Int))].filter
          (fun p => (0 : Int) - windowDays "1week" * msPerDay ≤ p.1)).map
            (toPoint (fun r => r)) ∧
        ∀ p ∈ ([((- 5 : Int), (3 : Int))].filter
          (fun p => (0 : Int) - windowDays "1week" * msPerDay ≤ p.1)).map
            (toPoint (fun r => r)), m.1 ≤ p.1) :=
  ⟨by decide, chartSeries_head_is_earliest _ _ _ _ (by decide)⟩

/-! ### Claim theorems for the panel state machines -/

/-- A concrete stock-panel state currently displaying a quote, with a
valid API key. -/
def stockStateShowing : StockState :=
  { symbol := "MSFT"
    stockData := some
      { symbol := "MSFT", price := "430.16", change := "1.02"
        changePercent := "0.24%", high := "431.00", low := "428.00"
        volume := "100", latestTradingDay := "2024-01-02"
        companyName := "Microsoft Corporation" }
    historicalData := some [((0 : Int),
      { field1Open := "1", field2High := "2", field3Low := "0"
        field4Close := "1", field5Volume := "10" })]
    timeRange := "3months"
    loading := false
    error := none
    searchQuery := ""
    apiKeyValid := true }

/-- A concrete weather-panel state currently displaying data. -/
def weatherStateShowing : WeatherState :=
  { city := "Paris", inputCity := "", data := some { forecastList := [] }
    error := none, loading := false }

/-- **C3 (counterexample)**: on entering Loading the stock panel does
not clear previously displayed data: starting from a state showing a
quote, the Loading entry of `fetchStockData` (which sets `loading` and
clears `error` only) leaves both `stockData` and `historicalData`
populated, refuting "the stock panel and the weather panel immediately
clear any previously displayed data". -/
theorem stocks_loading_keeps_data_counterexample :
    (fetchStockDataStart stockStateShowing).1.loading = true ∧
      (fetchStockDataStart stockStateShowing).1.stockData ≠ none ∧
      (fetchStockDataStart stockStateShowing).1.historicalData ≠ none := by
  decide

/-- **C3 (amended)**: on entering Loading both panels clear any previous
error; the weather panel also clears its displayed data immediately,
while the stock panel retains its previously displayed data
(`stockData`, `historicalData`) unchanged. -/
theorem loading_entry_effects (s : StockState) (hs : s.apiKeyValid = true)
    (w : WeatherState) (c : String) (hc : c ≠ "") :
    (fetchStockDataStart s).1.loading = true ∧
      (fetchStockDataStart s).1.error = none ∧
      (fetchStockDataStart s).1.stockData = s.stockData ∧
      (fetchStockDataStart s).1.historicalData = s.historicalData ∧
      (fetchWeatherStart w c).loading = true ∧
      (fetchWeatherStart w c).error = none ∧
      (fetchWeatherStart w c).data = none := by
  have hc2 : (c == "") = false := by
    simpa using hc
  unfold fetchStockDataStart fetchWeatherStart
  rw [hs, hc2]
  simp

/-- **C3 (witness)**: the amended claim at concrete states. -/
theorem loading_entry_effects_witness :
    (stockStateShowing.apiKeyValid = true ∧ ("London" : String) ≠ "") ∧
      ((fetchStockDataStart stockStateShowing).1.loading = true ∧
        (fetchStockDataStart stockStateShowing).1.error = none ∧
        (fetchStockDataStart stockStateShowing).1.stockData =
          stockStateShowing.stockData ∧
        (fetchStockDataStart stockStateShowing).1.historicalData =
          stockStateShowing.historicalData ∧
        (fetchWeatherStart weatherStateShowing "London").loading = true ∧
        (fetchWeatherStart weatherStateShowing "London").error = none ∧
        (fetchWeatherStart weatherStateShowing "London").data = none) :=
  ⟨⟨by decide, by decide⟩,
    loading_entry_effects stockStateShowing (by decide)
      weatherStateShowing "London" (by decide)⟩

/-- **C4**: an entered symbol whose trimmed, uppercased form is not in
the supported list makes `handleSearch` enter the Failed state with the
error message naming the supported symbol list, leave the selected
symbol (and every fetch-effect dependency) unchanged, and hence trigger
no network fetch. -/
theorem handleSearch_unsupported (s : StockState)
    (hq : s.searchQuery.trim ≠ "")
    (hns : SUPPORTED_SYMBOLS.contains s.searchQuery.trim.toUpper = false) :
    (handleSearch s).error =
        some ("Invalid symbol. Supported: " ++
          String.intercalate ", " SUPPORTED_SYMBOLS) ∧
      (handleSearch s).symbol = s.symbol ∧
      fetchTriggered s (handleSearch s) = false := by
  have h1 : (s.searchQuery.trim == "") = false := by simpa using hq
  have hmem : s.searchQuery.trim.toUpper ∉ SUPPORTED_SYMBOLS := by
    simpa using hns
  unfold handleSearch
  rw [h1]
  simp [hmem, invalidSymbolMsg, fetchTriggered]

/-- A concrete stock-panel state with an unsupported query typed in. -/
def stockStateBadQuery : StockState :=
  { stockStateShowing with searchQuery := " q " }

/-- Evaluation of the concrete query's trim (the library's `String.trim`
is defined by well-founded recursion, so it is evaluated here through
its equation lemmas). -/
theorem stockStateBadQuery_trim : stockStateBadQuery.searchQuery.trim = "q" := by
  show (" q " : String).trim = "q"
  simp +decide [String.trim, Substring.trim, Substring.trimLeft,
    Substring.trimRight, Substring.takeWhileAux, Substring.takeRightWhileAux,
    Substring.toString, String.toSubstring]

/-- Evaluation of the concrete query's uppercasing (the library's
`String.toUpper` is defined by well-founded recursion). -/
theorem toUpper_q : ("q" : String).toUpper = "Q" := by
  simp +decide [String.toUpper, String.map, String.mapAux]

/-- **C4 (witness)**: the rejected search at a concrete state. -/
theorem handleSearch_unsupported_witness :
    (stockStateBadQuery.searchQuery.trim ≠ "" ∧
      SUPPORTED_SYMBOLS.contains stockStateBadQuery.searchQuery.trim.toUpper
        = false) ∧
      ((handleSearch stockStateBadQuery).error =
          some ("Invalid symbol. Supported: " ++
            String.intercalate ", " SUPPORTED_SYMBOLS) ∧
        (handleSearch stockStateBadQuery).symbol = stockStateBadQuery.symbol ∧
        fetchTriggered stockStateBadQuery (handleSearch stockStateBadQuery)
          = false) :=
  ⟨⟨by rw [stockStateBadQuery_trim]; decide,
      by rw [stockStateBadQuery_trim, toUpper_q]; decide⟩,
    handleSearch_unsupported stockStateBadQuery
      (by rw [stockStateBadQuery_trim]; decide)
      (by rw [stockStateBadQuery_trim, toUpper_q]; decide)⟩

/-- **C5**: with the stock API key missing or equal to the placeholder
`'demo'`, the computed key validity is false, and every invocation of
the fetch routine short-circuits: it sets the configuration-warning
message, performs no network call, and leaves all other state
unchanged. -/
theorem fetchStock_shortCircuits_on_bad_key (key : Option String)
    (s : StockState) (hk : key = none ∨ key = some "demo")
    (hs : s.apiKeyValid = apiKeyValidOf key) :
    s.apiKeyValid = false ∧
      (fetchStockDataStart s).2 = false ∧
      (fetchStockDataStart s).1.error = some missingKeyMsg ∧
      (fetchStockDataStart s).1.loading = s.loading ∧
      (fetchStockDataStart s).1.stockData = s.stockData ∧
      (fetchStockDataStart s).1.historicalData = s.historicalData := by
  have hv : s.apiKeyValid = false := by
    rcases hk with h | h <;> subst h <;> simpa [apiKeyValidOf] using hs
  refine ⟨hv, ?_⟩
  unfold fetchStockDataStart
  rw [hv]
  simp

/-- A concrete stock-panel state whose key was the placeholder. -/
def stockStateNoKey : StockState :=
  { stockStateShowing with apiKeyValid := false }

/-- **C5 (witness)**: the short-circuit at a concrete state with the
placeholder key. -/
theorem fetchStock_shortCircuits_on_bad_key_witness :
    ((some "demo" = (none : Option String) ∨
        (some "demo" : Option String) = some "demo") ∧
      stockStateNoKey.apiKeyValid = apiKeyValidOf (some "demo")) ∧
      (stockStateNoKey.apiKeyValid = false ∧
        (fetchStockDataStart stockStateNoKey).2 = false ∧
        (fetchStockDataStart stockStateNoKey).1.error = some missingKeyMsg ∧
        (fetchStockDataStart stockStateNoKey).1.loading =
          stockStateNoKey.loading ∧
        (fetchStockDataStart stockStateNoKey).1.stockData =
          stockStateNoKey.stockData ∧
        (fetchStockDataStart stockStateNoKey).1.historicalData =
          stockStateNoKey.historicalData) :=
  ⟨⟨Or.inr rfl, by decide⟩,
    fetchStock_shortCircuits_on_bad_key (some "demo") stockStateNoKey
      (Or.inr rfl) (by decide)⟩

/-- **C10**: a search whose trimmed, uppercased form is unsupported
(including the blank query, which is ignored) leaves the selected
symbol, the search-box text, the displayed data, and every fetch-effect
dependency unchanged, so no re-fetch is triggered; only the error
message may change. -/
theorem handleSearch_rejected_frame (s : StockState)
    (hns : SUPPORTED_SYMBOLS.contains s.searchQuery.trim.toUpper = false) :
    (handleSearch s).symbol = s.symbol ∧
      (handleSearch s).searchQuery = s.searchQuery ∧
      (handleSearch s).stockData = s.stockData ∧
      (handleSearch s).historicalData = s.historicalData ∧
      (handleSearch s).timeRange = s.timeRange ∧
      (handleSearch s).loading = s.loading ∧
      (handleSearch s).apiKeyValid = s.apiKeyValid ∧
      fetchTriggered s (handleSearch s) = false := by
  have hmem : s.searchQuery.trim.toUpper ∉ SUPPORTED_SYMBOLS := by
    simpa using hns
  unfold handleSearch
  cases he : s.searchQuery.trim == "" with
  | true => simp [fetchTriggered]
  | false => simp [hmem, fetchTriggered]

/-- **C10 (witness)**: the frame condition at a concrete state. -/
theorem handleSearch_rejected_frame_witness :
    (SUPPORTED_SYMBOLS.contains stockStateBadQuery.searchQuery.trim.toUpper
        = false) ∧
      ((handleSearch stockStateBadQuery).symbol = stockStateBadQuery.symbol ∧
        (handleSearch stockStateBadQuery).searchQuery =
          stockStateBadQuery.searchQuery ∧
        (handleSearch stockStateBadQuery).stockData =
          stockStateBadQuery.stockData ∧
        (handleSearch stockStateBadQuery).historicalData =
          stockStateBadQuery.historicalData ∧
        (handleSearch stockStateBadQuery).timeRange =
          stockStateBadQuery.timeRange ∧
        (handleSearch stockStateBadQuery).loading =
          stockStateBadQuery.loading ∧
        (handleSearch stockStateBadQuery).apiKeyValid =
          stockStateBadQuery.apiKeyValid ∧
        fetchTriggered stockStateBadQuery (handleSearch stockStateBadQuery)
          = false) :=
  ⟨by rw [stockStateBadQuery_trim, toUpper_q]; decide,
    handleSearch_rejected_frame stockStateBadQuery
      (by rw [stockStateBadQuery_trim, toUpper_q]; decide)⟩

/-! ### Claim theorem for the rain prediction -/

/-- One step of the grouping fold preserves the bucket invariant:
buckets are non-empty and (for a non-negative item) contain only
non-negative amounts. -/
theorem addItem_preserves (acc : List (String × List ℚ)) (it : ForecastItem)
    (hacc : ∀ p ∈ acc, p.2 ≠ [] ∧ ∀ q ∈ p.2, 0 ≤ q)
    (hit : 0 ≤ rainOf it) :
    ∀ p ∈ addItem acc it, p.2 ≠ [] ∧ ∀ q ∈ p.2, 0 ≤ q := by
  intro p hp
  unfold addItem at hp
  cases hany : acc.any (fun r => r.1 == dayKey it) with
  | true =>
    rw [hany, if_pos rfl] at hp
    obtain ⟨r, hr, hmap⟩ := List.mem_map.mp hp
    cases hkey : r.1 == dayKey it with
    | true =>
      rw [hkey, if_pos rfl] at hmap
      cases hmap
      refine ⟨by simp, ?_⟩
      intro q hq
      rcases List.mem_append.mp hq with h | h
      · exact (hacc r hr).2 q h
      · rw [List.mem_singleton.mp h]
        exact hit
    | false =>
      rw [hkey] at hmap
      simp only [Bool.false_eq_true, if_false] at hmap
      cases hmap
      exact hacc _ hr
  | false =>
    rw [hany] at hp
    simp only [Bool.false_eq_true, if_false] at hp
    rcases List.mem_append.mp hp with h | h
    · exact hacc p h
    · rw [List.mem_singleton.mp h]
      refine ⟨by simp, ?_⟩
      intro q hq
      rw [List.mem_singleton.mp hq]
      exact hit

/-- Every bucket built by `groupRains` from non-negative rain inputs is
non-empty and contains only non-negative amounts. -/
theorem groupRains_buckets (items : List ForecastItem)
    (hr : ∀ it ∈ items, 0 ≤ rainOf it) :
    ∀ p ∈ groupRains items, p.2 ≠ [] ∧ ∀ q ∈ p.2, 0 ≤ q := by
  suffices key : ∀ (items2 : List ForecastItem) (acc : List (String × List ℚ)),
      (∀ p ∈ acc, p.2 ≠ [] ∧ ∀ q ∈ p.2, 0 ≤ q) →
      (∀ it ∈ items2, 0 ≤ rainOf it) →
      ∀ p ∈ items2.foldl addItem acc, p.2 ≠ [] ∧ ∀ q ∈ p.2, 0 ≤ q by
    exact key items [] (by simp) hr
  intro items2
  induction items2 with
  | nil =>
    intro acc hacc _ p hp
    exact hacc p hp
  | cons it its ih =>
    intro acc hacc hr2 p hp
    simp only [List.foldl_cons] at hp
    exact ih (addItem acc it)
      (addItem_preserves acc it hacc (hr2 it (List.mem_cons_self it its)))
      (fun x hx => hr2 x (List.mem_cons_of_mem _ hx)) p hp

/-- **C9**: for every forecast list whose per-interval rain amounts are
all non-negative, `getRainChances` returns at most 3 day entries, and
each entry's chance is an integer in `[0, 100]`. -/
theorem getRainChances_bounds (items : List ForecastItem)
    (hr : ∀ it ∈ items, 0 ≤ rainOf it) :
    (getRainChances items).length ≤ 3 ∧
      ∀ e ∈ getRainChances items, 0 ≤ e.2 ∧ e.2 ≤ 100 := by
  constructor
  · unfold getRainChances
    rw [List.length_map, List.length_take]
    exact min_le_left _ _
  · intro e he
    unfold getRainChances at he
    obtain ⟨p, hp, hpe⟩ := List.mem_map.mp he
    have hpg : p ∈ groupRains items :=
      List.mem_of_mem_drop (List.mem_of_mem_take hp)
    obtain ⟨hne, hpos⟩ := groupRains_buckets items hr p hpg
    cases hpe
    refine ⟨?_, min_le_left _ _⟩
    refine le_min (by norm_num) ?_
    have hsum : 0 ≤ p.2.sum := List.sum_nonneg hpos
    have hlen : (0 : ℚ) ≤ (p.2.length : ℚ) := by positivity
    have havg : 0 ≤ (p.2.sum / (p.2.length : ℚ)) * 10 :=
      mul_nonneg (div_nonneg hsum hlen) (by norm_num)
    rw [round_eq]
    exact Int.floor_nonneg.mpr (by linarith)

/-- **C9 (witness)**: the bounds at a concrete two-day forecast list. -/
theorem getRainChances_bounds_witness :
    (∀ it ∈ [ForecastItem.mk "2024-01-01 00:00:00" (some 1),
        ForecastItem.mk "2024-01-02 03:00:00" none], 0 ≤ rainOf it) ∧
      ((getRainChances [ForecastItem.mk "2024-01-01 00:00:00" (some 1),
          ForecastItem.mk "2024-01-02 03:00:00" none]).length ≤ 3 ∧
        ∀ e ∈ getRainChances [ForecastItem.mk "2024-01-01 00:00:00" (some 1),
          ForecastItem.mk "2024-01-02 03:00:00" none], 0 ≤ e.2 ∧ e.2 ≤ 100) :=
  ⟨by decide, getRainChances_bounds _ (by decide)⟩

end Dashboard
